import Mathlib

/-!
Shallow embedding of the pngme chunk codec (src/chunk.rs, src/chunk_type.rs).

Bytes are modelled as `Nat` (with `< 256` hypotheses where byte-ness matters),
`u32` values as `Nat` reduced modulo `2^32` exactly where the Rust code performs
32-bit arithmetic, byte slices as `List Nat`, and fallible operations as
`Except String` / `ParseResult`.  `ParseResult.panic` models a Rust panic
(overflowing `split_at` / failed `unwrap`), distinct from an `Err` return.
-/

namespace Pngme

/-- `2^32`, the modulus of Rust `u32` arithmetic. -/
def U32MOD : Nat := 4294967296

/-- Rust `u8::is_ascii_lowercase`. -/
def isAsciiLowercase (b : Nat) : Bool := decide (97 ≤ b ∧ b ≤ 122)

/-- Rust `u8::is_ascii_uppercase`. -/
def isAsciiUppercase (b : Nat) : Bool := decide (65 ≤ b ∧ b ≤ 90)

/-- The byte predicate used in the filter of `ChunkType::try_from`. -/
def isTagByte (b : Nat) : Bool := isAsciiLowercase b || isAsciiUppercase b

/-- A Rust `[u8; 4]` array. -/
structure Bytes4 where
  b0 : Nat
  b1 : Nat
  b2 : Nat
  b3 : Nat
deriving DecidableEq, Repr

def Bytes4.toList (a : Bytes4) : List Nat := [a.b0, a.b1, a.b2, a.b3]

/-- `ChunkType` from src/chunk_type.rs: a validated 4-byte tag. -/
structure ChunkType where
  bytes : Bytes4
deriving DecidableEq, Repr

/-- `impl TryFrom<[u8; 4]> for ChunkType`: the input passes iff filtering it
down to ASCII-letter bytes keeps all 4 entries. -/
def ChunkType.tryFrom (bytes : Bytes4) : Except String ChunkType :=
  if (bytes.toList.filter isTagByte).length = 4 then
    Except.ok { bytes := bytes }
  else
    Except.error "Invalid Chunk Type"

/-- `impl FromStr for ChunkType`: `s.as_bytes().try_into()` fails unless the
string is exactly 4 bytes, then delegates to the byte constructor. -/
def ChunkType.fromStr (s : List Nat) : Except String ChunkType :=
  match s with
  | [a, b, c, d] => ChunkType.tryFrom ⟨a, b, c, d⟩
  | _ => Except.error "could not convert slice to array"

/-- `ChunkType::is_upper(pos)`: `self.bytes[pos] <= 90`. -/
def ChunkType.isUpper (t : ChunkType) (pos : Nat) : Bool :=
  decide (t.bytes.toList.getD pos 0 ≤ 90)

def ChunkType.isCritical (t : ChunkType) : Bool := t.isUpper 0

def ChunkType.isPublic (t : ChunkType) : Bool := t.isUpper 1

def ChunkType.isReservedBitValid (t : ChunkType) : Bool := t.isUpper 2

def ChunkType.isSafeToCopy (t : ChunkType) : Bool := !(t.isUpper 3)

def ChunkType.isValid (t : ChunkType) : Bool := t.isReservedBitValid

/-- The reflected CRC-32 (ISO-HDLC) polynomial 0xEDB88320. -/
def CRCPOLY : Nat := 3988292384

/-- One bit step of the reflected CRC-32 loop on a `u32` register. -/
def crcStepBit (c : Nat) : Nat :=
  if c % 2 = 1 then (c / 2) ^^^ CRCPOLY else c / 2

/-- Feed one byte into the CRC-32 register: xor the byte in, then 8 bit steps. -/
def crcStepByte (c b : Nat) : Nat :=
  crcStepBit (crcStepBit (crcStepBit (crcStepBit
    (crcStepBit (crcStepBit (crcStepBit (crcStepBit (c ^^^ b))))))))

/-- `Chunk::calc_crc`: CRC-32/ISO-HDLC (init `0xFFFFFFFF`, reflected,
xorout `0xFFFFFFFF`) over `chunk_type ++ data`, as computed by the `crc`
crate `CRC_32_ISO_HDLC` digest. -/
def Chunk.calcCrc (chunkType data : List Nat) : Nat :=
  ((chunkType ++ data).foldl crcStepByte 4294967295) ^^^ 4294967295

/-- `Chunk` from src/chunk.rs. -/
structure Chunk where
  chunkType : ChunkType
  data : List Nat
  crc : Nat
deriving DecidableEq, Repr

/-- `Chunk::new`: stores the tag and payload and computes the CRC. -/
def Chunk.new (chunkType : ChunkType) (data : List Nat) : Chunk :=
  { chunkType := chunkType, data := data,
    crc := Chunk.calcCrc chunkType.bytes.toList data }

/-- `Chunk::length`: `self.data.len() as u32` (a truncating cast). -/
def Chunk.length (c : Chunk) : Nat := c.data.length % U32MOD

/-- `Chunk::chunk_size`: `self.length() as usize + 12`. -/
def Chunk.chunkSize (c : Chunk) : Nat := c.length + 12

/-- `u32::to_be_bytes`. -/
def u32ToBeBytes (n : Nat) : List Nat :=
  [n / 16777216 % 256, n / 65536 % 256, n / 256 % 256, n % 256]

/-- `u32::from_be_bytes`. -/
def u32FromBeBytes (a b c d : Nat) : Nat :=
  ((a * 256 + b) * 256 + c) * 256 + d

/-- `Chunk::as_bytes`: big-endian length, tag bytes, payload, big-endian CRC. -/
def Chunk.asBytes (c : Chunk) : List Nat :=
  u32ToBeBytes c.length ++ c.chunkType.bytes.toList ++ c.data ++ u32ToBeBytes c.crc

/-- Outcome of `Chunk::try_from`: success, an `Err` with its message, or a
Rust panic. -/
inductive ParseResult where
  | ok : Chunk → ParseResult
  | err : String → ParseResult
  | panic : ParseResult
deriving DecidableEq, Repr

/-- `impl TryFrom<&[u8]> for Chunk` (release semantics: `len + 4` is wrapping
`u32` addition, and `split_at` with an out-of-range index panics). -/
def Chunk.tryFrom (value : List Nat) : ParseResult :=
  if value.length < 12 then ParseResult.err "Chunk is too small" else
  match value with
  | l0 :: l1 :: l2 :: l3 :: t0 :: t1 :: t2 :: t3 :: rest =>
    let len := u32FromBeBytes l0 l1 l2 l3
    match ChunkType.tryFrom ⟨t0, t1, t2, t3⟩ with
    | Except.error e => ParseResult.err e
    | Except.ok chunkType =>
      if rest.length < (len + 4) % U32MOD then ParseResult.err "Data length is invalid"
      else if rest.length < len then ParseResult.panic
      else
        let data := rest.take len
        match (rest.drop len).take 4 with
        | [c0, c1, c2, c3] =>
          let crc := u32FromBeBytes c0 c1 c2 c3
          if crc = Chunk.calcCrc [t0, t1, t2, t3] data then
            ParseResult.ok { chunkType := chunkType, data := data, crc := crc }
          else ParseResult.err "CRC check failed"
        | _ => ParseResult.panic
  | _ => ParseResult.panic

/-! ## Concrete test data (from the repository test suite) -/

/-- The tag "RuSt". -/
def rust : ChunkType := ⟨⟨82, 117, 83, 116⟩⟩

/-- The 42-byte test message "This is where your secret message will be!". -/
def testMsg : List Nat :=
  [84, 104, 105, 115, 32, 105, 115, 32, 119, 104, 101, 114, 101, 32,
   121, 111, 117, 114, 32, 115, 101, 99, 114, 101, 116, 32, 109, 101,
   115, 115, 97, 103, 101, 32, 119, 105, 108, 108, 32, 98, 101, 33]

/-- The record parsed from the valid test vector. -/
def testChunk : Chunk := ⟨rust, testMsg, 2882656334⟩

/-- Valid test input: length 42, tag "RuSt", the message, CRC 2882656334. -/
def testGood : List Nat :=
  u32ToBeBytes 42 ++ [82, 117, 83, 116] ++ testMsg ++ u32ToBeBytes 2882656334

/-- The same input with the CRC field replaced by 2882656333. -/
def testBad : List Nat :=
  u32ToBeBytes 42 ++ [82, 117, 83, 116] ++ testMsg ++ u32ToBeBytes 2882656333

/-- A valid empty-payload "RuSt" record followed by one trailing byte. -/
def trailingInput : List Nat :=
  [0, 0, 0, 0, 82, 117, 83, 116] ++ u32ToBeBytes 3565422908 ++ [0]

/-- A 12-byte input whose big-endian length field is the u32 maximum. -/
def overflowInput : List Nat := [255, 255, 255, 255, 82, 117, 83, 116, 0, 0, 0, 0]

/-! ## Helper lemmas -/

lemma U32MOD_eq : U32MOD = 2 ^ 32 := by norm_num [U32MOD]

lemma u32FromBeBytes_lt {a b c d : Nat} (ha : a < 256) (hb : b < 256)
    (hc : c < 256) (hd : d < 256) : u32FromBeBytes a b c d < U32MOD := by
  unfold u32FromBeBytes U32MOD; omega

lemma u32ToBeBytes_fromBe {a b c d : Nat} (ha : a < 256) (hb : b < 256)
    (hc : c < 256) (hd : d < 256) :
    u32ToBeBytes (u32FromBeBytes a b c d) = [a, b, c, d] := by
  simp only [u32ToBeBytes, u32FromBeBytes, List.cons.injEq, and_true]
  omega

lemma u32FromBeBytes_toBe {n : Nat} (h : n < U32MOD) :
    u32FromBeBytes (n / 16777216 % 256) (n / 65536 % 256) (n / 256 % 256) (n % 256) = n := by
  unfold u32FromBeBytes U32MOD at *; omega

lemma filter4_all {p : Nat → Bool} {a b c d : Nat}
    (h : (([a, b, c, d]).filter p).length = 4) :
    p a = true ∧ p b = true ∧ p c = true ∧ p d = true := by
  cases ha : p a <;> cases hb : p b <;> cases hc : p c <;> cases hd : p d <;>
    simp [List.filter, ha, hb, hc, hd] at h ⊢

lemma isTagByte_bounds {b : Nat} (h : isTagByte b = true) : 65 ≤ b ∧ b ≤ 122 := by
  simp [isTagByte, isAsciiLowercase, isAsciiUppercase] at h
  omega

lemma tagBytes_of_ok {bt : Bytes4} {t : ChunkType}
    (h : ChunkType.tryFrom bt = Except.ok t) : t = ⟨bt⟩ := by
  unfold ChunkType.tryFrom at h
  split at h
  · exact (Except.ok.inj h).symm
  · exact absurd h (by simp)

lemma letters_of_ok {bt : Bytes4} {t : ChunkType}
    (h : ChunkType.tryFrom bt = Except.ok t) :
    isTagByte bt.b0 = true ∧ isTagByte bt.b1 = true ∧
    isTagByte bt.b2 = true ∧ isTagByte bt.b3 = true := by
  unfold ChunkType.tryFrom at h
  split at h
  · next hc => exact filter4_all (by simpa [Bytes4.toList] using hc)
  · exact absurd h (by simp)

lemma tryFrom_ok_of_letters {bt : Bytes4}
    (h0 : isTagByte bt.b0 = true) (h1 : isTagByte bt.b1 = true)
    (h2 : isTagByte bt.b2 = true) (h3 : isTagByte bt.b3 = true) :
    ChunkType.tryFrom bt = Except.ok ⟨bt⟩ := by
  unfold ChunkType.tryFrom
  simp [Bytes4.toList, List.filter, h0, h1, h2, h3]

lemma crcStepBit_lt {c : Nat} (h : c < U32MOD) : crcStepBit c < U32MOD := by
  unfold crcStepBit
  split
  · rw [U32MOD_eq]
    exact Nat.xor_lt_two_pow (by rw [U32MOD_eq] at h; omega) (by norm_num [CRCPOLY])
  · omega

lemma crcStepByte_lt {c b : Nat} (hc : c < U32MOD) (hb : b < 256) :
    crcStepByte c b < U32MOD := by
  have h0 : c ^^^ b < U32MOD := by
    rw [U32MOD_eq]
    exact Nat.xor_lt_two_pow (by rw [U32MOD_eq] at hc; omega) (by omega)
  unfold crcStepByte
  exact crcStepBit_lt (crcStepBit_lt (crcStepBit_lt (crcStepBit_lt
    (crcStepBit_lt (crcStepBit_lt (crcStepBit_lt (crcStepBit_lt h0)))))))

lemma foldl_crc_lt : ∀ (l : List Nat) (acc : Nat), acc < U32MOD →
    (∀ x ∈ l, x < 256) → l.foldl crcStepByte acc < U32MOD
  | [], _, h, _ => h
  | b :: l, acc, h, hl =>
    foldl_crc_lt l (crcStepByte acc b)
      (crcStepByte_lt h (hl b (List.mem_cons_self b l)))
      (fun x hx => hl x (List.mem_cons_of_mem b hx))

lemma calcCrc_lt {ct data : List Nat} (hct : ∀ x ∈ ct, x < 256)
    (hd : ∀ x ∈ data, x < 256) : Chunk.calcCrc ct data < U32MOD := by
  unfold Chunk.calcCrc
  rw [U32MOD_eq]
  refine Nat.xor_lt_two_pow ?_ (by norm_num)
  rw [← U32MOD_eq]
  refine foldl_crc_lt _ _ (by norm_num [U32MOD]) ?_
  intro x hx
  rcases List.mem_append.mp hx with h | h
  · exact hct x h
  · exact hd x h

lemma take4_cons (a b c d : Nat) (l : List Nat) :
    (a :: b :: c :: d :: l).take 4 = [a, b, c, d] := rfl

lemma tryFrom_asBytes_append (t : ChunkType) (p extra : List Nat)
    (ht : ChunkType.tryFrom t.bytes = Except.ok t)
    (hlen : p.length < U32MOD)
    (hp : ∀ x ∈ p, x < 256) :
    Chunk.tryFrom ((Chunk.new t p).asBytes ++ extra) = ParseResult.ok (Chunk.new t p) := by
  obtain ⟨⟨b0, b1, b2, b3⟩⟩ := t
  obtain ⟨h0, h1, h2, h3⟩ := letters_of_ok ht
  have hb0 : 65 ≤ b0 ∧ b0 ≤ 122 := isTagByte_bounds (by exact h0)
  have hb1 : 65 ≤ b1 ∧ b1 ≤ 122 := isTagByte_bounds (by exact h1)
  have hb2 : 65 ≤ b2 ∧ b2 ≤ 122 := isTagByte_bounds (by exact h2)
  have hb3 : 65 ≤ b3 ∧ b3 ≤ 122 := isTagByte_bounds (by exact h3)
  have hcrc : Chunk.calcCrc [b0, b1, b2, b3] p < U32MOD := by
    refine calcCrc_lt ?_ hp
    intro x hx
    simp at hx
    rcases hx with h | h | h | h <;> omega
  set crc := Chunk.calcCrc [b0, b1, b2, b3] p with hcrcdef
  have hnew : Chunk.new ⟨⟨b0, b1, b2, b3⟩⟩ p =
      { chunkType := ⟨⟨b0, b1, b2, b3⟩⟩, data := p, crc := crc } := by
    simp [Chunk.new, Bytes4.toList, hcrcdef]
  have hval : (Chunk.new ⟨⟨b0, b1, b2, b3⟩⟩ p).asBytes ++ extra =
      (p.length / 16777216 % 256) :: (p.length / 65536 % 256) ::
      (p.length / 256 % 256) :: (p.length % 256) ::
      b0 :: b1 :: b2 :: b3 ::
      (p ++ ((crc / 16777216 % 256) :: (crc / 65536 % 256) ::
             (crc / 256 % 256) :: (crc % 256) :: extra)) := by
    simp [Chunk.asBytes, hnew, Chunk.length, u32ToBeBytes, Bytes4.toList,
      Nat.mod_eq_of_lt hlen]
  rw [hnew] at hval ⊢
  rw [hval]
  unfold Chunk.tryFrom
  rw [if_neg (by simp; omega)]
  dsimp only
  rw [tryFrom_ok_of_letters (by exact h0) (by exact h1) (by exact h2) (by exact h3)]
  rw [u32FromBeBytes_toBe hlen]
  dsimp only
  rw [if_neg (by simp [U32MOD]; omega)]
  rw [if_neg (by simp)]
  rw [List.take_left, List.drop_left]
  rw [take4_cons]
  dsimp only
  rw [u32FromBeBytes_toBe hcrc]
  rw [if_pos hcrcdef.symm]


lemma tryFrom_ok_inv {b : List Nat} {c : Chunk}
    (h : Chunk.tryFrom b = ParseResult.ok c) :
    ∃ l0 l1 l2 l3 t0 t1 t2 t3 rest,
      b = l0 :: l1 :: l2 :: l3 :: t0 :: t1 :: t2 :: t3 :: rest ∧
      u32FromBeBytes l0 l1 l2 l3 ≤ rest.length ∧
      ChunkType.tryFrom ⟨t0, t1, t2, t3⟩ = Except.ok c.chunkType ∧
      c.chunkType = ⟨⟨t0, t1, t2, t3⟩⟩ ∧
      c.data = rest.take (u32FromBeBytes l0 l1 l2 l3) ∧
      ∃ c0 c1 c2 c3,
        (rest.drop (u32FromBeBytes l0 l1 l2 l3)).take 4 = [c0, c1, c2, c3] ∧
        c.crc = u32FromBeBytes c0 c1 c2 c3 ∧
        c.crc = Chunk.calcCrc [t0, t1, t2, t3] c.data := by
  unfold Chunk.tryFrom at h
  split at h
  · exact absurd h (by simp)
  split at h
  case h_2 x hx => exact absurd h (by simp)
  case h_1 l0 l1 l2 l3 t0 t1 t2 t3 rest hlt =>
  dsimp only at h
  split at h
  case h_1 e he => exact absurd h (by simp)
  case h_2 tt htt =>
  split at h
  · exact absurd h (by simp)
  split at h
  · exact absurd h (by simp)
  case isFalse h4 h5 =>
  split at h
  case h_2 x hx => exact absurd h (by simp)
  case h_1 c0 c1 c2 c3 hc =>
  split at h
  case isFalse => exact absurd h (by simp)
  case isTrue hcrceq =>
  obtain rfl := (ParseResult.ok.inj h)
  exact ⟨l0, l1, l2, l3, t0, t1, t2, t3, rest, rfl, by omega, htt, tagBytes_of_ok htt,
    rfl, c0, c1, c2, c3, hc, rfl, hcrceq⟩

lemma take8_cons (a b c d e f g h : Nat) (l : List Nat) :
    (a :: b :: c :: d :: e :: f :: g :: h :: l).take 8 = [a, b, c, d, e, f, g, h] := rfl

lemma drop8_cons (a b c d e f g h : Nat) (l : List Nat) :
    (a :: b :: c :: d :: e :: f :: g :: h :: l).drop 8 = l := rfl

/-- Index helpers for `ChunkType::is_upper` at the four fixed positions. -/
lemma isUpper_zero (t : ChunkType) : t.isUpper 0 = decide (t.bytes.b0 ≤ 90) := rfl

lemma isUpper_one (t : ChunkType) : t.isUpper 1 = decide (t.bytes.b1 ≤ 90) := rfl

lemma isUpper_two (t : ChunkType) : t.isUpper 2 = decide (t.bytes.b2 ≤ 90) := rfl

lemma isUpper_three (t : ChunkType) : t.isUpper 3 = decide (t.bytes.b3 ≤ 90) := rfl

/-! ## Claims -/

/-- C1 (counterexample): a valid empty-payload record followed by one trailing
byte is accepted by parsing, but serializing the parsed record does not give
back the input, refuting `serialize(parse(b)) == b` for every accepted `b`. -/
theorem c1_exact_inverse_cex :
    Chunk.tryFrom trailingInput = ParseResult.ok (Chunk.new rust []) ∧
    (Chunk.new rust []).asBytes ≠ trailingInput := by
  exact ⟨by decide, by decide⟩

/-- C1 (amended): for every byte slice `b` that parsing accepts, serializing
the parsed record reproduces exactly the first `L + 12` bytes of `b` (the
framed record); when `b` has no trailing bytes it reproduces `b` itself. -/
theorem c1_serialize_parse_framed {b : List Nat} {c : Chunk}
    (hb : ∀ x ∈ b, x < 256)
    (h : Chunk.tryFrom b = ParseResult.ok c) :
    c.asBytes = b.take (c.data.length + 12) ∧
    (b.length = c.data.length + 12 → c.asBytes = b) := by
  obtain ⟨l0, l1, l2, l3, t0, t1, t2, t3, rest, hbeq, hlenle, htt, hct, hdata,
    c0, c1, c2, c3, hc, hcrc1, hcrc2⟩ := tryFrom_ok_inv h
  subst hbeq
  have hbyte : ∀ x ∈ (l0 :: l1 :: l2 :: l3 :: t0 :: t1 :: t2 :: t3 :: rest), x < 256 := hb
  have hl0 : l0 < 256 := hbyte l0 (by simp)
  have hl1 : l1 < 256 := hbyte l1 (by simp)
  have hl2 : l2 < 256 := hbyte l2 (by simp)
  have hl3 : l3 < 256 := hbyte l3 (by simp)
  have hrest : ∀ x ∈ rest, x < 256 := fun x hx => hbyte x (by simp [hx])
  have hci : ∀ x ∈ ([c0, c1, c2, c3] : List Nat), x < 256 := by
    intro x hx
    rw [← hc] at hx
    exact hrest x (List.drop_subset _ _ (List.take_subset _ _ hx))
  have hlenlt : u32FromBeBytes l0 l1 l2 l3 < U32MOD := u32FromBeBytes_lt hl0 hl1 hl2 hl3
  have hdlen : c.data.length = u32FromBeBytes l0 l1 l2 l3 := by
    rw [hdata, List.length_take]
    simp [Nat.min_def]
    omega
  have hfirst : c.asBytes = List.take (c.data.length + 12) (l0 :: l1 :: l2 :: l3 :: t0 :: t1 :: t2 :: t3 :: rest) := by
    have h812 : c.data.length + 12 = 8 + (c.data.length + 4) := by omega
    rw [h812, List.take_add, take8_cons, drop8_cons]
    rw [List.take_add, hdlen, ← hdata, hc]
    have hcl : c.length = u32FromBeBytes l0 l1 l2 l3 := by
      rw [Chunk.length, hdlen, Nat.mod_eq_of_lt hlenlt]
    rw [Chunk.asBytes, hcl, hct, hcrc1]
    rw [u32ToBeBytes_fromBe hl0 hl1 hl2 hl3]
    rw [u32ToBeBytes_fromBe (hci c0 (by simp)) (hci c1 (by simp))
      (hci c2 (by simp)) (hci c3 (by simp))]
    simp [Bytes4.toList]
  exact ⟨hfirst, fun hl => by rw [hfirst, ← hl, List.take_length]⟩

/-- C1 witness: the amended statement instantiated at the trailing-byte input. -/
theorem c1_serialize_parse_framed_witness :
    (Chunk.new rust []).asBytes = trailingInput.take ((Chunk.new rust []).data.length + 12) ∧
    (trailingInput.length = (Chunk.new rust []).data.length + 12 →
      (Chunk.new rust []).asBytes = trailingInput) :=
  c1_serialize_parse_framed (by decide) (by decide)

/-- C2: for any tag whose 4 bytes are ASCII letters and any byte payload whose
length fits in a `u32`, parsing the serialization of `Chunk::new t p` succeeds
and returns a record equal to `Chunk::new t p` (so with equal tag bytes, equal
payload and equal checksum). -/
theorem c2_roundtrip (t : ChunkType) (p : List Nat)
    (h0 : isTagByte t.bytes.b0 = true) (h1 : isTagByte t.bytes.b1 = true)
    (h2 : isTagByte t.bytes.b2 = true) (h3 : isTagByte t.bytes.b3 = true)
    (hlen : p.length < U32MOD) (hp : ∀ x ∈ p, x < 256) :
    Chunk.tryFrom (Chunk.new t p).asBytes = ParseResult.ok (Chunk.new t p) := by
  have ht : ChunkType.tryFrom t.bytes = Except.ok t := tryFrom_ok_of_letters h0 h1 h2 h3
  simpa using tryFrom_asBytes_append t p [] ht hlen hp

/-- C2 witness: the round-trip at tag "RuSt" and payload `[1, 2, 3]`. -/
theorem c2_roundtrip_witness :
    Chunk.tryFrom (Chunk.new rust [1, 2, 3]).asBytes = ParseResult.ok (Chunk.new rust [1, 2, 3]) :=
  c2_roundtrip rust [1, 2, 3] (by decide) (by decide) (by decide) (by decide)
    (by norm_num [U32MOD]) (by decide)

/-- C3: every record reachable through the public interface satisfies the
checksum invariant: `Chunk::new` stores exactly `calc_crc(tag ++ payload)`,
and any record produced by successful parsing satisfies the same equation. -/
theorem c3_checksum_invariant :
    (∀ (t : ChunkType) (p : List Nat),
      (Chunk.new t p).crc = Chunk.calcCrc t.bytes.toList p) ∧
    (∀ (b : List Nat) (c : Chunk), Chunk.tryFrom b = ParseResult.ok c →
      c.crc = Chunk.calcCrc c.chunkType.bytes.toList c.data) := by
  refine ⟨fun t p => rfl, fun b c h => ?_⟩
  obtain ⟨l0, l1, l2, l3, t0, t1, t2, t3, rest, hbeq, hlenle, htt, hct, hdata,
    c0, c1, c2, c3, hc, hcrc1, hcrc2⟩ := tryFrom_ok_inv h
  rw [hct]
  simpa [Bytes4.toList] using hcrc2

set_option maxRecDepth 1000000 in
/-- C3 witness: the invariant at the constructed and the parsed test record. -/
theorem c3_checksum_invariant_witness :
    (Chunk.new rust testMsg).crc = Chunk.calcCrc rust.bytes.toList testMsg ∧
    testChunk.crc = Chunk.calcCrc testChunk.chunkType.bytes.toList testChunk.data :=
  ⟨c3_checksum_invariant.1 rust testMsg,
   c3_checksum_invariant.2 testGood testChunk (by decide)⟩

/-- C4 (failing input): the 12-byte input with length field `4294967295` and a
valid tag makes the parser panic (the wrapping check `rest.len >= len + 4`
passes spuriously, then `split_at(len)` is out of bounds) instead of returning
the "Data length is invalid" error the claim requires. -/
theorem c4_overflow_panic : Chunk.tryFrom overflowInput = ParseResult.panic := by
  decide

/-- C8: a byte slice beginning with a valid serialized record (valid tag,
payload of u32-encodable length, matching checksum) followed by arbitrary
extra bytes parses to exactly the leading record, ignoring the remainder. -/
theorem c8_trailing_tolerance (t : ChunkType) (p extra : List Nat)
    (h0 : isTagByte t.bytes.b0 = true) (h1 : isTagByte t.bytes.b1 = true)
    (h2 : isTagByte t.bytes.b2 = true) (h3 : isTagByte t.bytes.b3 = true)
    (hlen : p.length < U32MOD) (hp : ∀ x ∈ p, x < 256) :
    Chunk.tryFrom ((Chunk.new t p).asBytes ++ extra) = ParseResult.ok (Chunk.new t p) :=
  tryFrom_asBytes_append t p extra (tryFrom_ok_of_letters h0 h1 h2 h3) hlen hp

/-- C8 witness: trailing tolerance at tag "RuSt", payload `[1, 2, 3]`, extra
bytes `[9, 9, 9]`. -/
theorem c8_trailing_tolerance_witness :
    Chunk.tryFrom ((Chunk.new rust [1, 2, 3]).asBytes ++ [9, 9, 9]) =
      ParseResult.ok (Chunk.new rust [1, 2, 3]) :=
  c8_trailing_tolerance rust [1, 2, 3] [9, 9, 9] (by decide) (by decide) (by decide)
    (by decide) (by norm_num [U32MOD]) (by decide)

/-- C9: any byte slice shorter than 12 bytes fails to parse with the
"Chunk is too small" error, regardless of content. -/
theorem c9_minimum_size (b : List Nat) (h : b.length < 12) :
    Chunk.tryFrom b = ParseResult.err "Chunk is too small" := by
  unfold Chunk.tryFrom
  rw [if_pos h]

/-- C9 witness: the minimum-size rejection at the 3-byte input `[0, 1, 2]`. -/
theorem c9_minimum_size_witness :
    ([0, 1, 2] : List Nat).length < 12 ∧
    Chunk.tryFrom [0, 1, 2] = ParseResult.err "Chunk is too small" :=
  ⟨by decide, c9_minimum_size [0, 1, 2] (by decide)⟩

/-- C10: `Chunk::new` accepts a payload of any length and stores it whole, but
for a payload of `2^32` or more bytes `length()` is the payload length reduced
modulo `2^32`, `as_bytes` writes that truncated value in the 4-byte length
field while still emitting every payload byte, and `chunk_size()` no longer
equals `as_bytes().len()`. -/
theorem c10_length_truncation (t : ChunkType) (p : List Nat)
    (h : U32MOD ≤ p.length) :
    (Chunk.new t p).data = p ∧
    (Chunk.new t p).length = p.length % U32MOD ∧
    (Chunk.new t p).asBytes =
      u32ToBeBytes (p.length % U32MOD) ++ t.bytes.toList ++ p ++
        u32ToBeBytes (Chunk.new t p).crc ∧
    (Chunk.new t p).asBytes.length = p.length + 12 ∧
    (Chunk.new t p).chunkSize ≠ (Chunk.new t p).asBytes.length := by
  refine ⟨rfl, rfl, rfl, ?_, ?_⟩
  · simp [Chunk.asBytes, Chunk.new, u32ToBeBytes, Bytes4.toList]
  · intro hcontra
    rw [Chunk.chunkSize] at hcontra
    have h1 : (Chunk.new t p).length = p.length % U32MOD := rfl
    have h2 : (Chunk.new t p).asBytes.length = p.length + 12 := by
      simp [Chunk.asBytes, Chunk.new, u32ToBeBytes, Bytes4.toList]
    rw [h1, h2] at hcontra
    have h3 : p.length % U32MOD < U32MOD := Nat.mod_lt _ (by norm_num [U32MOD])
    omega

/-- C10 witness: the truncation behaviour at a `2^32`-byte payload of sevens. -/
theorem c10_length_truncation_witness :
    U32MOD ≤ (List.replicate U32MOD 7).length ∧
    ((Chunk.new rust (List.replicate U32MOD 7)).data = List.replicate U32MOD 7 ∧
     (Chunk.new rust (List.replicate U32MOD 7)).length =
       (List.replicate U32MOD 7).length % U32MOD ∧
     (Chunk.new rust (List.replicate U32MOD 7)).asBytes =
       u32ToBeBytes ((List.replicate U32MOD 7).length % U32MOD) ++ rust.bytes.toList ++
         List.replicate U32MOD 7 ++ u32ToBeBytes (Chunk.new rust (List.replicate U32MOD 7)).crc ∧
     (Chunk.new rust (List.replicate U32MOD 7)).asBytes.length =
       (List.replicate U32MOD 7).length + 12 ∧
     (Chunk.new rust (List.replicate U32MOD 7)).chunkSize ≠
       (Chunk.new rust (List.replicate U32MOD 7)).asBytes.length) :=
  ⟨by simp, c10_length_truncation rust (List.replicate U32MOD 7) (by simp)⟩

/-- C5: `ChunkType::try_from` on 4 bytes succeeds iff every byte is an ASCII
letter, failing with the "Invalid Chunk Type" error otherwise; `from_str`
fails for every string whose byte length is not 4 (at the array conversion),
agrees with the byte constructor on 4-byte strings, and `bytes()` returns the
constructing bytes. -/
theorem c5_tag_construction :
    (∀ bt : Bytes4,
      (∃ t, ChunkType.tryFrom bt = Except.ok t) ↔
        (isTagByte bt.b0 = true ∧ isTagByte bt.b1 = true ∧
         isTagByte bt.b2 = true ∧ isTagByte bt.b3 = true)) ∧
    (∀ bt : Bytes4,
      ¬(isTagByte bt.b0 = true ∧ isTagByte bt.b1 = true ∧
        isTagByte bt.b2 = true ∧ isTagByte bt.b3 = true) →
      ChunkType.tryFrom bt = Except.error "Invalid Chunk Type") ∧
    (∀ s : List Nat, s.length ≠ 4 →
      ChunkType.fromStr s = Except.error "could not convert slice to array") ∧
    (∀ a b c d : Nat, ChunkType.fromStr [a, b, c, d] = ChunkType.tryFrom ⟨a, b, c, d⟩) ∧
    (∀ (bt : Bytes4) (t : ChunkType),
      ChunkType.tryFrom bt = Except.ok t → t.bytes = bt) := by
  refine ⟨?_, ?_, ?_, fun a b c d => rfl, fun bt t h => by rw [tagBytes_of_ok h]⟩
  · intro bt
    constructor
    · rintro ⟨t, ht⟩
      exact letters_of_ok ht
    · rintro ⟨h0, h1, h2, h3⟩
      exact ⟨⟨bt⟩, tryFrom_ok_of_letters h0 h1 h2 h3⟩
  · intro bt hnot
    unfold ChunkType.tryFrom
    rw [if_neg]
    intro hcond
    exact hnot (filter4_all (by simpa [Bytes4.toList] using hcond))
  · intro s hs
    unfold ChunkType.fromStr
    split
    · simp_all
    · rfl

/-- C5 witness: construction behaviour at "RuSt", "Ru1t" and "RuS". -/
theorem c5_tag_construction_witness :
    (∃ t, ChunkType.tryFrom ⟨82, 117, 83, 116⟩ = Except.ok t) ∧
    ChunkType.tryFrom ⟨82, 117, 49, 116⟩ = Except.error "Invalid Chunk Type" ∧
    ChunkType.fromStr [82, 117, 83] = Except.error "could not convert slice to array" ∧
    ChunkType.fromStr [82, 117, 83, 116] = ChunkType.tryFrom ⟨82, 117, 83, 116⟩ ∧
    rust.bytes = ⟨82, 117, 83, 116⟩ :=
  ⟨(c5_tag_construction.1 ⟨82, 117, 83, 116⟩).mpr (by decide),
   c5_tag_construction.2.1 ⟨82, 117, 49, 116⟩ (by decide),
   c5_tag_construction.2.2.1 [82, 117, 83] (by decide),
   c5_tag_construction.2.2.2.1 82 117 83 116,
   c5_tag_construction.2.2.2.2 ⟨82, 117, 83, 116⟩ rust rfl⟩

/-- C6: for every validly constructed tag, `is_critical`/`is_public`/
`is_reserved_bit_valid` hold iff bytes 0/1/2 are uppercase, `is_safe_to_copy`
iff byte 3 is not uppercase, and `is_valid` coincides with
`is_reserved_bit_valid`; at "RuSt" the four predicates give
true/false/true/true, at "RuST" `is_safe_to_copy` is false, and at "ruSt"
`is_critical` is false. -/
theorem c6_tag_properties :
    (∀ (bt : Bytes4) (t : ChunkType), ChunkType.tryFrom bt = Except.ok t →
      (t.isCritical = isAsciiUppercase bt.b0 ∧
       t.isPublic = isAsciiUppercase bt.b1 ∧
       t.isReservedBitValid = isAsciiUppercase bt.b2 ∧
       t.isSafeToCopy = !isAsciiUppercase bt.b3 ∧
       t.isValid = t.isReservedBitValid)) ∧
    (rust.isCritical = true ∧ rust.isPublic = false ∧
     rust.isReservedBitValid = true ∧ rust.isSafeToCopy = true) ∧
    (ChunkType.mk ⟨82, 117, 83, 84⟩).isSafeToCopy = false ∧
    (ChunkType.mk ⟨114, 117, 83, 116⟩).isCritical = false := by
  refine ⟨?_, by decide, by decide, by decide⟩
  intro bt t h
  obtain ⟨h0, h1, h2, h3⟩ := letters_of_ok h
  obtain rfl := tagBytes_of_ok h
  have hb0 := isTagByte_bounds h0
  have hb1 := isTagByte_bounds h1
  have hb2 := isTagByte_bounds h2
  have hb3 := isTagByte_bounds h3
  simp only [isTagByte, isAsciiLowercase, isAsciiUppercase, Bool.or_eq_true,
    decide_eq_true_eq] at h0 h1 h2 h3
  refine ⟨?_, ?_, ?_, ?_, rfl⟩ <;>
    simp only [ChunkType.isCritical, ChunkType.isPublic, ChunkType.isReservedBitValid,
      ChunkType.isSafeToCopy, ChunkType.isValid, isUpper_zero, isUpper_one,
      isUpper_two, isUpper_three, isAsciiUppercase, ← decide_not,
      decide_eq_decide] <;> omega

/-- C6 witness: the property characterization instantiated at the tag "RuSt". -/
theorem c6_tag_properties_witness :
    rust.isCritical = isAsciiUppercase 82 ∧
    rust.isPublic = isAsciiUppercase 117 ∧
    rust.isReservedBitValid = isAsciiUppercase 83 ∧
    rust.isSafeToCopy = !isAsciiUppercase 116 ∧
    rust.isValid = rust.isReservedBitValid :=
  c6_tag_properties.1 ⟨82, 117, 83, 116⟩ rust rfl

set_option maxRecDepth 1000000 in
/-- C7: the test vector (length 42, tag "RuSt", the 42-byte message, CRC
2882656334) parses to a record with length 42 and CRC 2882656334, while the
same bytes with CRC 2882656333 fail with the "CRC check failed" error. -/
theorem c7_corruption_detection :
    Chunk.tryFrom testGood = ParseResult.ok testChunk ∧
    testChunk.length = 42 ∧
    testChunk.crc = 2882656334 ∧
    Chunk.tryFrom testBad = ParseResult.err "CRC check failed" := by
  exact ⟨by decide, by decide, rfl, by decide⟩

end Pngme
